import Mathlib

/-!
# Verification of the testrift-server core

A shallow embedding, in Lean 4, of the parts of the testrift-server code
base (Python) that its natural-language specification talks about:

* the classification engine (`database.py`, `_calculate_classification`);
* the group-hash computation (`utils.py`, `normalize_group_payload` and
  `compute_group_hash`), together with an executable SHA-256;
* the identifier validators (`utils.py`, `validate_run_id`,
  `validate_custom_run_id`, `validate_test_case_id`);
* log-batch ingestion (`models.py`, `TestCaseData.add_log_entries`);
* the live-log replay (`websocket.py`, `handle_log_stream`);
* merge-on-finish and per-case file cleanup (`websocket.py`,
  `_merge_logs_for_run` / `_cleanup_case_log_files`);
* the connection watchdog tick (`websocket.py`, `monitor_connection`);
* duplicate-run-id handling (`websocket.py`, `_handle_run_started`);
* broadcast status counting (`websocket.py`, `_count_test_statuses`) and
  index aggregation (`database.py`, `get_test_runs`);
* the startup sweep for abandoned runs (`cleanup.py`,
  `cleanup_abandoned_running_runs`).

Python dictionaries are modelled as association lists that keep insertion
order (first binding of a key wins on lookup, as a Python dict exposes a
single binding per key); machine-level details that the properties do not
depend on (logging, awaiting, exception tracebacks) are elided.
-/

namespace TestRift

/-! ## A small model of Python values

Log entries, stack traces and group payloads travel through the code as
decoded MessagePack values: strings, integers, booleans, None, lists and
dicts with string keys.  `PyVal` models exactly those.
-/

inductive PyVal where
  | pstr : String → PyVal
  | pint : Int → PyVal
  | pbool : Bool → PyVal
  | pnone : PyVal
  | plist : List PyVal → PyVal
  | pdict : List (String × PyVal) → PyVal

/-- Lookup in a Python dict: the (unique) binding of a key.  Modelled as
the first binding in the association list. -/
def dictGet : PyVal → String → Option PyVal
  | .pdict fields, k =>
    match fields.find? (fun kv => kv.1 == k) with
    | some kv => some kv.2
    | none => none
  | _, _ => none

/-- `isinstance(entry, dict)` -/
def isDict : PyVal → Bool
  | .pdict _ => true
  | _ => false

/-- `'ts' in entry` for a dict (false for non-dicts). -/
def hasKey (v : PyVal) (k : String) : Bool :=
  (dictGet v k).isSome

/-! ## Classification engine

`database.py`, `TestResultsDatabase._calculate_classification`.  The
history rows reach the function ordered most-recent-first; only their
`status` column is consulted, so the embedding takes the history as a
list of status strings.
-/

/-- Python `str.lower()` on a character, for the ASCII range that the
status strings live in. -/
def lowerChar (c : Char) : Char :=
  if 'A' ≤ c ∧ c ≤ 'Z' then Char.ofNat (c.toNat + 32) else c

/-- Python `str.lower()` (ASCII; all statuses the server compares are
ASCII). -/
def pyLower (s : String) : String := ⟨s.data.map lowerChar⟩

/-- Number of adjacent transitions in a list (used on the pass/fail
projection). -/
def countTransitions : List String → Nat
  | a :: b :: rest => (if a ≠ b then 1 else 0) + countTransitions (b :: rest)
  | _ => 0

/-- The history filter of `_calculate_classification`: statuses relevant
to pass/fail behaviour (drop `skipped`, `running`, `aborted`). -/
def relevantOf (history : List String) : List String :=
  history.filter (fun s =>
    !(pyLower s == "skipped" || pyLower s == "running" || pyLower s == "aborted"))

/-- The pass/fail projection of `_calculate_classification`: keep
`passed`/`failed`/`error` (case-insensitively) and rename to
`pass`/`fail`. -/
def projectPassFail (statuses : List String) : List String :=
  (statuses.filter (fun s => s == "passed" || s == "failed" || s == "error")).map
    (fun s => if s == "passed" then "pass" else "fail")

/-- `TestResultsDatabase._calculate_classification` (database.py).
`current` is the current status, `history` the most-recent-first status
history. -/
def calculateClassification (current : String) (history : List String) : Option String :=
  if history = [] then none
  else
    let currentIsPass := pyLower current == "passed"
    let currentIsFail := pyLower current == "failed" || pyLower current == "error"
    let relevant := relevantOf history
    if relevant = [] then none
    else
      let statuses := projectPassFail (pyLower current :: relevant.map pyLower)
      if 2 ≤ statuses.length ∧ 4 < countTransitions statuses then some "flaky"
      else if currentIsPass ∧ 5 ≤ relevant.length ∧
          ((relevant.take 5).all (fun s => pyLower s == "failed" || pyLower s == "error")) then
        some "fixed"
      else if currentIsFail ∧ 5 ≤ relevant.length ∧
          ((relevant.take 5).all (fun s => pyLower s == "passed")) then
        some "regression"
      else none

/-! Spec-side definitions for claim C6, written from the specification
words: `S = [current] + relevant_history` projected to pass/fail;
flaky iff `S` has more than 4 adjacent transitions; fixed iff current is
passed and the 5 most recent relevant entries are all failed/error;
regression iff current is failed/error and the 5 most recent relevant
entries are all passed. -/

/-- The sequence `S` of the spec. -/
def specS (current : String) (history : List String) : List String :=
  projectPassFail ((current :: relevantOf history).map pyLower)

/-- Spec: more than 4 adjacent transitions in `S`. -/
def specFlaky (current : String) (history : List String) : Prop :=
  4 < countTransitions (specS current history)

/-- Spec: current is passed and the 5 most recent relevant-history
entries are all failed/error. -/
def specFixed (current : String) (history : List String) : Prop :=
  pyLower current = "passed" ∧ 5 ≤ (relevantOf history).length ∧
    ∀ s ∈ (relevantOf history).take 5, pyLower s = "failed" ∨ pyLower s = "error"

/-- Spec: current is failed/error and the 5 most recent relevant-history
entries are all passed. -/
def specRegression (current : String) (history : List String) : Prop :=
  (pyLower current = "failed" ∨ pyLower current = "error") ∧
    5 ≤ (relevantOf history).length ∧
    ∀ s ∈ (relevantOf history).take 5, pyLower s = "passed"

instance (c : String) (h : List String) : Decidable (specFlaky c h) := by
  unfold specFlaky; infer_instance

instance (c : String) (h : List String) : Decidable (specFixed c h) := by
  unfold specFixed; infer_instance

instance (c : String) (h : List String) : Decidable (specRegression c h) := by
  unfold specRegression; infer_instance

/-- The label cascade exactly as claim C6 words it: flaky iff more than 4
adjacent transitions in `S`; otherwise fixed iff current is passed and
the 5 most recent relevant entries are all failed/error; otherwise
regression iff current is failed/error and the 5 most recent relevant
entries are all passed; otherwise no label. -/
def specLabel (current : String) (history : List String) : Option String :=
  if specFlaky current history then some "flaky"
  else if specFixed current history then some "fixed"
  else if specRegression current history then some "regression"
  else none

/-- A list with fewer than two elements has no adjacent transition. -/
theorem countTransitions_short (l : List String) (h : l.length < 2) :
    countTransitions l = 0 := by
  match l, h with
  | [], _ => rfl
  | [a], _ => rfl

/-- A positive transition count forces at least two elements. -/
theorem two_le_length_of_transitions (l : List String) (h : 0 < countTransitions l) :
    2 ≤ l.length := by
  by_contra hlt
  push_neg at hlt
  rw [countTransitions_short l (by omega)] at h
  omega

/-- C6.  For every test case with a current status and a non-empty
relevant history, `_calculate_classification` returns exactly the label
that the spec cascade (flaky / fixed / regression / none) prescribes. -/
theorem classification_matches_spec (current : String) (history : List String)
    (hrel : relevantOf history ≠ []) :
    calculateClassification current history = specLabel current history := by
  have hhist : history ≠ [] := by
    intro h
    apply hrel
    rw [h]
    rfl
  have hS : projectPassFail (pyLower current :: (relevantOf history).map pyLower)
      = specS current history := by
    simp [specS]
  have hflaky : (2 ≤ (specS current history).length ∧
      4 < countTransitions (specS current history)) ↔ specFlaky current history := by
    constructor
    · intro h
      exact h.2
    · intro h
      exact ⟨two_le_length_of_transitions _ (by unfold specFlaky at h; omega), h⟩
  have hfixed : ((pyLower current == "passed") = true ∧ 5 ≤ (relevantOf history).length ∧
      (((relevantOf history).take 5).all
        (fun s => pyLower s == "failed" || pyLower s == "error")) = true)
      ↔ specFixed current history := by
    unfold specFixed
    simp [List.all_eq_true]
  have hreg : ((pyLower current == "failed" || pyLower current == "error") = true ∧
      5 ≤ (relevantOf history).length ∧
      (((relevantOf history).take 5).all (fun s => pyLower s == "passed")) = true)
      ↔ specRegression current history := by
    unfold specRegression
    simp [List.all_eq_true]
  unfold calculateClassification specLabel
  rw [if_neg hhist, if_neg hrel]
  simp only [hS]
  rw [if_congr hflaky rfl rfl, if_congr hfixed rfl rfl, if_congr hreg rfl rfl]

/-- Witness for C6: scenario E of the spec, history (newest first)
pass, fail, pass, fail, pass, fail, pass with current fail is classified
by the cascade (it comes out flaky: 7 transitions). -/
theorem classification_matches_spec_witness :
    relevantOf ["passed", "failed", "passed", "failed", "passed", "failed", "passed"] ≠ [] ∧
    calculateClassification "failed"
        ["passed", "failed", "passed", "failed", "passed", "failed", "passed"]
      = specLabel "failed"
        ["passed", "failed", "passed", "failed", "passed", "failed", "passed"] :=
  ⟨by decide, classification_matches_spec "failed"
    ["passed", "failed", "passed", "failed", "passed", "failed", "passed"] (by decide)⟩

/-! ## Identifier validators

`utils.py`: `validate_run_id`, `validate_test_case_id`,
`validate_custom_run_id`; and the gate at the top of
`websocket.py`, `handle_log_stream`.
-/

/-- The dangerous characters of `validate_run_id`. -/
def dangerousChars : List Char := ['<', '>', ':', '"', '|', '?', '*', '[', ']']

/-- The substring test `'..' in run_id`: two consecutive dots occur. -/
def hasSubstrDotDot : List Char → Bool
  | c :: d :: rest => (c == '.' && d == '.') || hasSubstrDotDot (d :: rest)
  | _ => false

/-- Without a dot there is no `..` substring. -/
theorem hasSubstrDotDot_eq_false : ∀ l : List Char, '.' ∉ l → hasSubstrDotDot l = false
  | [], _ => rfl
  | [_], _ => rfl
  | c :: d :: rest, h => by
    have hc : (c == '.') = false := by
      rw [beq_eq_false_iff_ne]
      intro hcc
      exact h (hcc ▸ List.mem_cons_self c _)
    have ih := hasSubstrDotDot_eq_false (d :: rest)
      (fun hm => h (List.mem_cons_of_mem _ hm))
    unfold hasSubstrDotDot
    rw [ih, hc]
    simp

/-- `utils.validate_run_id`: path-traversal-safe id of at most 100
characters, as used by the live-log endpoint. -/
def validateRunId (runId : String) : Bool :=
  if runId = "" then false
  else if hasSubstrDotDot runId.data then false
  else if runId.data.contains '/' then false
  else if runId.data.contains '\\' then false
  else if runId.data.any (fun c => dangerousChars.contains c) then false
  else if 100 < runId.length then false
  else true

/-- `utils.validate_test_case_id`: alphanumeric plus hyphen, at most 20
characters. -/
def validateTestCaseId (tcId : String) : Bool :=
  if tcId = "" then false
  else if 20 < tcId.length then false
  else tcId.data.all (fun c => c.isAlphanum || c == '-')

/-- The rejection reasons of `validate_custom_run_id` (the Python code
pairs the boolean with an error message; the constructor records which
message). -/
inductive RunIdError where
  | emptyOrNotString
  | rawSlash
  | backslash
  | dotDot
  | badPercent
  | badChars
  | tooLong
deriving DecidableEq, Repr

/-- Hexadecimal digit as matched by the `%[0-9A-Fa-f]{2}` pattern. -/
def pyIsHex (c : Char) : Bool :=
  c.isDigit || ('A' ≤ c ∧ c ≤ 'F') || ('a' ≤ c ∧ c ≤ 'f')

/-- `re.sub` of every valid percent-encoded `%XX` sequence by `_`,
scanning left to right (as the regex engine does). -/
def percentSub : List Char → List Char
  | '%' :: a :: b :: rest =>
    if pyIsHex a && pyIsHex b then '_' :: percentSub rest
    else '%' :: percentSub (a :: b :: rest)
  | c :: rest => c :: percentSub rest
  | [] => []

/-- A character of the URL-safe class `[A-Za-z0-9\-_.~]`. -/
def urlSafeChar (c : Char) : Bool :=
  c.isAlphanum || c == '-' || c == '_' || c == '.' || c == '~'

/-- The tail of `validate_custom_run_id` after percent handling: the
`^[A-Za-z0-9\-_.~]+$` test on the remaining characters, then the
200-character cap on the original id. -/
def finishCustomValidation (remaining : List Char) (runId : String) : Option RunIdError :=
  if !(remaining ≠ [] ∧ remaining.all urlSafeChar) then some .badChars
  else if 200 < runId.length then some .tooLong
  else none

/-- `utils.validate_custom_run_id`: `none` means the `(True, None)`
result, `some e` the `(False, message)` result with `e` naming the
message. -/
def validateCustomRunId (runId : String) : Option RunIdError :=
  if runId = "" then some .emptyOrNotString
  else if runId.data.contains '/' then some .rawSlash
  else if runId.data.contains '\\' then some .backslash
  else if hasSubstrDotDot runId.data then some .dotDot
  else if runId.data.contains '%' then
    let temp := percentSub runId.data
    if temp.contains '%' then some .badPercent
    else finishCustomValidation temp runId
  else finishCustomValidation runId.data runId

/-- The validation / lookup gate at the top of
`websocket.handle_log_stream`: the error message sent (and the socket
closed) before any replay, or `none` when streaming proceeds.
`activeRuns` maps each in-memory `run_id` to its `tc_id` keys. -/
def logStreamGate (activeRuns : List (String × List String)) (runId tcId : String) :
    Option String :=
  if !(validateRunId runId && validateTestCaseId tcId) then
    some "Invalid run ID or test case ID"
  else
    match activeRuns.find? (fun r => r.1 == runId) with
    | none => some "Test run not found"
    | some r => if r.2.contains tcId then none else some "Test case not found"

/-- An id that passes `validate_run_id` is at most 100 characters long. -/
theorem validateRunId_le_100 (runId : String) (h : validateRunId runId = true) :
    runId.length ≤ 100 := by
  unfold validateRunId at h
  split_ifs at h with h1 h2 h3 h4 h5 h6
  omega

/-- Characters of an alphanumeric-plus-hyphen id never include a given
non-alphanumeric, non-hyphen character. -/
theorem not_mem_of_alnumHyphen (l : List Char) (c : Char)
    (hall : l.all (fun d => d.isAlphanum || d == '-') = true)
    (hc : (c.isAlphanum || c == '-') = false) : l.contains c = false := by
  rw [List.all_eq_true] at hall
  by_contra hmem
  rw [Bool.not_eq_false, List.contains_eq_any_beq, List.any_eq_true] at hmem
  obtain ⟨d, hd, hdc⟩ := hmem
  rw [beq_iff_eq] at hdc
  subst hdc
  rw [hall c hd] at hc
  exact absurd hc (by simp)

/-- C10.  A run id made of alphanumerics and hyphens whose length lies in
101..200 is accepted by `validate_custom_run_id` (the `run_started`
validator) yet rejected by `validate_run_id`, so the live-log endpoint
answers `Invalid run ID or test case ID` even when the run is active in
memory. -/
theorem long_custom_run_id_rejected_by_log_stream (runId : String)
    (hchars : runId.data.all (fun c => c.isAlphanum || c == '-') = true)
    (hlong : 100 < runId.length) (hcap : runId.length ≤ 200) :
    validateCustomRunId runId = none ∧
    validateRunId runId = false ∧
    ∀ activeRuns tcId, logStreamGate activeRuns runId tcId =
      some "Invalid run ID or test case ID" := by
  have hne : runId ≠ "" := by
    intro h
    subst h
    simp [String.length] at hlong
  have hslash : runId.data.contains '/' = false :=
    not_mem_of_alnumHyphen _ _ hchars (by decide)
  have hback : runId.data.contains '\\' = false :=
    not_mem_of_alnumHyphen _ _ hchars (by decide)
  have hpct : runId.data.contains '%' = false :=
    not_mem_of_alnumHyphen _ _ hchars (by decide)
  have hdot : hasSubstrDotDot runId.data = false := by
    apply hasSubstrDotDot_eq_false
    intro hm
    have := List.all_eq_true.mp hchars _ hm
    exact absurd this (by decide)
  have hurl : runId.data.all urlSafeChar = true := by
    rw [List.all_eq_true] at hchars ⊢
    intro c hc
    have := hchars c hc
    unfold urlSafeChar
    rcases Bool.or_eq_true_iff.mp this with h | h
    · simp [h]
    · simp [h]
  have hdata_ne : runId.data ≠ [] := by
    intro h
    apply hne
    cases runId
    simp_all
  have hcustom : validateCustomRunId runId = none := by
    unfold validateCustomRunId
    rw [if_neg hne, hslash, hback, hdot, hpct]
    simp only [Bool.false_eq_true, if_false]
    unfold finishCustomValidation
    rw [if_neg (by simp [hdata_ne, hurl]), if_neg (by omega)]
  have hrun : validateRunId runId = false := by
    cases hval : validateRunId runId
    · rfl
    · exact absurd (validateRunId_le_100 runId hval) (by omega)
  refine ⟨hcustom, hrun, ?_⟩
  intro activeRuns tcId
  unfold logStreamGate
  rw [hrun]
  simp

/-- Witness for C10: the 101-character id `aaa…a` is accepted by the
`run_started` validator but turned away by the live-log endpoint. -/
theorem long_custom_run_id_rejected_by_log_stream_witness :
    (let runId : String := ⟨List.replicate 101 'a'⟩
     validateCustomRunId runId = none ∧
     validateRunId runId = false ∧
     ∀ activeRuns tcId, logStreamGate activeRuns runId tcId =
       some "Invalid run ID or test case ID") :=
  long_custom_run_id_rejected_by_log_stream ⟨List.replicate 101 'a'⟩
    (by decide) (by decide) (by decide)

/-! ## SHA-256

`compute_group_hash` calls `hashlib.sha256`; the embedding carries a
full executable SHA-256 over byte lists (words as `Nat` reduced mod
`2^32`).
-/

/-- Reduce to a 32-bit word. -/
def w32 (x : Nat) : Nat := x % 4294967296

/-- Right rotation of a 32-bit word. -/
def rotr32 (n x : Nat) : Nat := w32 (x / 2 ^ n + x % 2 ^ n * 2 ^ (32 - n))

/-- The SHA-256 Ch function. -/
def shaCh (x y z : Nat) : Nat :=
  Nat.xor (Nat.land x y) (Nat.land (Nat.xor x 4294967295) z)

/-- The SHA-256 Maj function. -/
def shaMaj (x y z : Nat) : Nat :=
  Nat.xor (Nat.xor (Nat.land x y) (Nat.land x z)) (Nat.land y z)

/-- The SHA-256 big sigma-0. -/
def shaS0 (x : Nat) : Nat := Nat.xor (Nat.xor (rotr32 2 x) (rotr32 13 x)) (rotr32 22 x)

/-- The SHA-256 big sigma-1. -/
def shaS1 (x : Nat) : Nat := Nat.xor (Nat.xor (rotr32 6 x) (rotr32 11 x)) (rotr32 25 x)

/-- The SHA-256 small sigma-0. -/
def shas0 (x : Nat) : Nat := Nat.xor (Nat.xor (rotr32 7 x) (rotr32 18 x)) (x / 8)

/-- The SHA-256 small sigma-1. -/
def shas1 (x : Nat) : Nat := Nat.xor (Nat.xor (rotr32 17 x) (rotr32 19 x)) (x / 1024)

/-- The SHA-256 round constants. -/
def shaK : List Nat :=
  [1116352408, 1899447441, 3049323471, 3921009573, 961987163, 1508970993,
   2453635748, 2870763221, 3624381080, 310598401, 607225278, 1426881987,
   1925078388, 2162078206, 2614888103, 3248222580, 3835390401, 4022224774,
   264347078, 604807628, 770255983, 1249150122, 1555081692, 1996064986,
   2554220882, 2821834349, 2952996808, 3210313671, 3336571891, 3584528711,
   113926993, 338241895, 666307205, 773529912, 1294757372, 1396182291,
   1695183700, 1986661051, 2177026350, 2456956037, 2730485921, 2820302411,
   3259730800, 3345764771, 3516065817, 3600352804, 4094571909, 275423344,
   430227734, 506948616, 659060556, 883997877, 958139571, 1322822218,
   1537002063, 1747873779, 1955562222, 2024104815, 2227730452, 2361852424,
   2428436474, 2756734187, 3204031479, 3329325298]

/-- The SHA-256 initial hash value. -/
def shaH0 : List Nat :=
  [1779033703, 3144134277, 1013904242, 2773480762,
   1359893119, 2600822924, 528734635, 1541459225]

/-- Big-endian bytes to 32-bit words, four at a time. -/
def bytesToWords : List Nat → List Nat
  | b0 :: b1 :: b2 :: b3 :: rest => (((b0 * 256 + b1) * 256 + b2) * 256 + b3) :: bytesToWords rest
  | _ => []

/-- Extend the 16-word block to the 64-word message schedule; `rev`
holds the words produced so far, most recent first. -/
def shaExtend (rev : List Nat) : Nat → List Nat
  | 0 => rev
  | n + 1 =>
    let t2 := rev.getD 1 0
    let t7 := rev.getD 6 0
    let t15 := rev.getD 14 0
    let t16 := rev.getD 15 0
    shaExtend (w32 (shas1 t2 + t7 + shas0 t15 + t16) :: rev) n

/-- One round of the SHA-256 compression function. -/
def shaRound (state : List Nat) (kw : Nat × Nat) : List Nat :=
  match state with
  | [a, b, c, d, e, f, g, h] =>
    let t1 := w32 (h + shaS1 e + shaCh e f g + kw.1 + kw.2)
    let t2 := w32 (shaS0 a + shaMaj a b c)
    [w32 (t1 + t2), a, b, c, w32 (d + t1), e, f, g]
  | s => s

/-- Compress a single 64-byte block into the running hash value. -/
def shaCompress (hval : List Nat) (block : List Nat) : List Nat :=
  let schedule := (shaExtend (bytesToWords block).reverse 48).reverse
  let final := (shaK.zip schedule).foldl shaRound hval
  (hval.zip final).map (fun p => w32 (p.1 + p.2))

/-- SHA-256 padding: `0x80`, zeros to 56 mod 64, 8-byte big-endian bit
length. -/
def shaPad (msg : List Nat) : List Nat :=
  let len := msg.length
  let zeros := (64 + 56 - (len + 1) % 64) % 64
  let bitLen := len * 8
  msg ++ [128] ++ List.replicate zeros 0 ++
    [w32 (bitLen / 72057594037927936) % 256, bitLen / 281474976710656 % 256,
     bitLen / 1099511627776 % 256, bitLen / 4294967296 % 256,
     bitLen / 16777216 % 256, bitLen / 65536 % 256, bitLen / 256 % 256, bitLen % 256]

/-- Split into 64-byte blocks (`fuel` bounds the recursion; the padded
message length is a multiple of 64). -/
def blocks64 (fuel : Nat) (l : List Nat) : List (List Nat) :=
  match fuel with
  | 0 => []
  | fuel + 1 => if l = [] then [] else l.take 64 :: blocks64 fuel (l.drop 64)

/-- Lowercase hexadecimal digit. -/
def hexDigit (n : Nat) : Char :=
  if n < 10 then Char.ofNat (48 + n) else Char.ofNat (87 + n % 16)

/-- A 32-bit word as 8 lowercase hex characters. -/
def wordToHex (w : Nat) : List Char :=
  [hexDigit (w / 268435456 % 16), hexDigit (w / 16777216 % 16),
   hexDigit (w / 1048576 % 16), hexDigit (w / 65536 % 16),
   hexDigit (w / 4096 % 16), hexDigit (w / 256 % 16),
   hexDigit (w / 16 % 16), hexDigit (w % 16)]

/-- `hashlib.sha256(bytes).hexdigest()`. -/
def sha256hex (msg : List Nat) : String :=
  let padded := shaPad msg
  let hval := (blocks64 padded.length padded).foldl shaCompress shaH0
  ⟨(hval.map wordToHex).foldr (fun w acc => w ++ acc) []⟩

/-- UTF-8 bytes of one code point. -/
def utf8Char (n : Nat) : List Nat :=
  if n < 128 then [n]
  else if n < 2048 then [192 + n / 64, 128 + n % 64]
  else if n < 65536 then [224 + n / 4096, 128 + n / 64 % 64, 128 + n % 64]
  else [240 + n / 262144, 128 + n / 4096 % 64, 128 + n / 64 % 64, 128 + n % 64]

/-- `str.encode("utf-8")`. -/
def utf8Bytes (s : String) : List Nat :=
  s.data.foldr (fun c acc => utf8Char c.toNat ++ acc) []

/-! ## Canonical JSON of the group payload

`json.dumps(canonical_payload, ensure_ascii=True, separators=(",", ":"))`
for the shape `{"name": str, "metadata": [(str, str), ...]}`.
-/

/-- `\uXXXX` escape. -/
def uEscape (n : Nat) : String :=
  "\\u" ++ ⟨[hexDigit (n / 4096 % 16), hexDigit (n / 256 % 16),
             hexDigit (n / 16 % 16), hexDigit (n % 16)]⟩

/-- One character of a JSON string under `ensure_ascii=True`: Python
escapes `"` and `\\` and everything outside `0x20..0x7e`, with the short
escapes for backspace, tab, newline, form feed and carriage return, and
surrogate pairs above the BMP. -/
def jsonEscapeChar (c : Char) : String :=
  let n := c.toNat
  if n = 34 then "\\\""
  else if n = 92 then "\\\\"
  else if n = 8 then "\\b"
  else if n = 9 then "\\t"
  else if n = 10 then "\\n"
  else if n = 12 then "\\f"
  else if n = 13 then "\\r"
  else if 32 ≤ n ∧ n ≤ 126 then ⟨[c]⟩
  else if n < 65536 then uEscape n
  else uEscape (55296 + (n - 65536) / 1024) ++ uEscape (56320 + (n - 65536) % 1024)

/-- A JSON string literal. -/
def jsonStr (s : String) : String :=
  "\"" ++ (s.data.foldr (fun c acc => jsonEscapeChar c ++ acc) "") ++ "\""

/-- The canonical payload serialization used by `compute_group_hash`:
the dict `name`/`metadata` with the metadata item tuples as two-element
arrays, comma/colon separators and no spaces. -/
def canonicalJson (name : String) (items : List (String × String)) : String :=
  "\x7b\"name\":" ++ jsonStr name ++ ",\"metadata\":[" ++
    String.intercalate "," (items.map (fun kv => "[" ++ jsonStr kv.1 ++ "," ++ jsonStr kv.2 ++ "]")) ++
    "]\x7d"

/-! ## Group payload normalization and hashing

`utils.py`: `normalize_group_payload` and `compute_group_hash`.
-/

/-- Python truthiness for the values the group payload carries. -/
def pyTruthy : PyVal → Bool
  | .pnone => false
  | .pbool b => b
  | .pint n => n ≠ 0
  | .pstr s => s ≠ ""
  | .plist l => !l.isEmpty
  | .pdict d => !d.isEmpty

/-- Python `str()` of a scalar.  Containers only reach `str()` in the
source through pathological group payloads (a non-empty list or dict as
a group name); for those this embedding renders a fixed marker instead
of the full `repr` text, which no stated theorem depends on (every
theorem here pins the normalized output, not the `str()` text). -/
def pyStr : PyVal → String
  | .pstr s => s
  | .pint n => toString n
  | .pbool true => "True"
  | .pbool false => "False"
  | .pnone => "None"
  | .plist _ => "<list>"
  | .pdict _ => "<dict>"

/-- Python whitespace stripped by `str.strip()` (ASCII range). -/
def isPySpace (c : Char) : Bool :=
  c == ' ' || c == '\t' || c == '\n' || c == '\r' || c == '\x0b' || c == '\x0c'

/-- `str.strip()`. -/
def pyStrip (s : String) : String :=
  ⟨((s.data.dropWhile isPySpace).reverse.dropWhile isPySpace).reverse⟩

/-- One metadata value of a normalized group payload. -/
structure MetaEntry where
  value : String
  url : Option String
deriving DecidableEq, Repr

/-- A normalized group payload: stripped non-empty name plus an
insertion-ordered metadata dict. -/
structure NormalizedGroup where
  name : String
  metadata : List (String × MetaEntry)
deriving DecidableEq, Repr

/-- Assignment into an insertion-ordered dict: an existing key keeps its
position, a new key goes to the end (Python dict semantics). -/
def upsert (l : List (String × MetaEntry)) (k : String) (v : MetaEntry) :
    List (String × MetaEntry) :=
  if l.any (fun kv => kv.1 == k) then
    l.map (fun kv => if kv.1 == k then (k, v) else kv)
  else l ++ [(k, v)]

/-- The `(key, meta_value)` item pairs `normalize_group_payload` walks:
dict metadata yields its items, list metadata yields
`(entry.get("name"), entry)` for dict entries, anything else none. -/
def metadataItems : PyVal → List (PyVal × PyVal)
  | .pdict fields => fields.map (fun kv => (.pstr kv.1, kv.2))
  | .plist entries =>
    entries.foldr
      (fun e acc =>
        match e with
        | .pdict _ => ((dictGet e "name").getD .pnone, e) :: acc
        | _ => acc)
      []
  | _ => []

/-- One normalization step for a `(key, meta_value)` item. -/
def normalizeItem (acc : List (String × MetaEntry)) (item : PyVal × PyVal) :
    List (String × MetaEntry) :=
  let keyStr := pyStrip (pyStr (if pyTruthy item.1 then item.1 else .pstr ""))
  if keyStr = "" then acc
  else
    match item.2 with
    | .pdict _ =>
      let v := (dictGet item.2 "value").getD (.pstr "")
      let value := pyStr (if pyTruthy v then v else .pstr "")
      let urlRaw := (dictGet item.2 "url").getD .pnone
      let url := match urlRaw with
        | .pnone => none
        | u => some (pyStr u)
      upsert acc keyStr ⟨value, url⟩
    | mv => upsert acc keyStr ⟨pyStr (if pyTruthy mv then mv else .pstr ""), none⟩

/-- `utils.normalize_group_payload`: canonical group dict with stripped
name and normalized metadata, or `None` when the input is not a dict or
has an empty name. -/
def normalizeGroupPayload (groupData : PyVal) : Option NormalizedGroup :=
  match groupData with
  | .pdict _ =>
    let rawName := (dictGet groupData "name").getD (.pstr "")
    let name := pyStrip (pyStr (if pyTruthy rawName then rawName else .pstr ""))
    if name = "" then none
    else
      let rawMeta := (dictGet groupData "metadata").getD .pnone
      let rawMeta := if pyTruthy rawMeta then rawMeta else .pdict []
      some ⟨name, (metadataItems rawMeta).foldl normalizeItem []⟩
  | _ => none

/-- Code-point comparison of strings, as Python compares `str`. -/
def strLtB : List Char → List Char → Bool
  | [], [] => false
  | [], _ :: _ => true
  | _ :: _, [] => false
  | a :: as, b :: bs => if a < b then true else if b < a then false else strLtB as bs

/-- The sort key comparison of `compute_group_hash`:
`(item[0].lower(), item[1])` tuples, compared the Python way. -/
def pairKeyLt (a b : String × String) : Bool :=
  strLtB (pyLower a.1).data (pyLower b.1).data ||
    (pyLower a.1 == pyLower b.1 && strLtB a.2.data b.2.data)

/-- Stable insertion keeping `x` after every element not strictly
greater (Python `list.sort` is stable). -/
def insertSorted (lt : α → α → Bool) (x : α) : List α → List α
  | [] => [x]
  | y :: ys => if lt x y then x :: y :: ys else y :: insertSorted lt x ys

/-- Stable sort by repeated insertion. -/
def stableSortBy (lt : α → α → Bool) (l : List α) : List α :=
  l.foldl (fun acc x => insertSorted lt x acc) []

/-- The group-hash length constant `GROUP_HASH_LENGTH` (utils.py). -/
def GROUP_HASH_LENGTH : Nat := 16

/-- The `(key, value)` items of a normalized payload, before sorting
(urls are dropped, exactly as `compute_group_hash` builds
`metadata_items`). -/
def kvItems (n : NormalizedGroup) : List (String × String) :=
  n.metadata.map (fun kv => (kv.1, kv.2.value))

/-- The case-insensitively sorted `(key, value)` items that enter the
canonical payload. -/
def sortedKvItems (n : NormalizedGroup) : List (String × String) :=
  stableSortBy pairKeyLt (kvItems n)

/-- `utils.compute_group_hash`: normalize, drop urls, sort the items by
`(key.lower(), value)`, serialize canonically and take the first 16 hex
characters of the SHA-256 digest. -/
def computeGroupHash (groupData : PyVal) : Option String :=
  match normalizeGroupPayload groupData with
  | none => none
  | some n =>
    some (((sha256hex (utf8Bytes (canonicalJson n.name (sortedKvItems n)))).take
      GROUP_HASH_LENGTH))

/-- C7.  `compute_group_hash` is a pure function of the normalized
payload: it returns the first 16 hex characters of the SHA-256 of the
canonical serialization, and any two payloads with equal normalized
name and equal case-insensitively-sorted `(key, value)` pairs hash
equally. -/
theorem computeGroupHash_pure_of_normalized (x y : PyVal) (nx ny : NormalizedGroup)
    (hx : normalizeGroupPayload x = some nx) (hy : normalizeGroupPayload y = some ny)
    (hname : nx.name = ny.name)
    (hkv : sortedKvItems nx = sortedKvItems ny) :
    computeGroupHash x =
      some ((sha256hex (utf8Bytes (canonicalJson nx.name (sortedKvItems nx)))).take
        GROUP_HASH_LENGTH) ∧
    computeGroupHash x = computeGroupHash y := by
  have h1 : computeGroupHash x =
      some ((sha256hex (utf8Bytes (canonicalJson nx.name (sortedKvItems nx)))).take
        GROUP_HASH_LENGTH) := by
    unfold computeGroupHash
    rw [hx]
  have h2 : computeGroupHash y =
      some ((sha256hex (utf8Bytes (canonicalJson ny.name (sortedKvItems ny)))).take
        GROUP_HASH_LENGTH) := by
    unfold computeGroupHash
    rw [hy]
  refine ⟨h1, ?_⟩
  rw [h1, h2, hname, hkv]

/-- Witness for C7: two payloads whose metadata dicts list the same
pairs in different orders (and whose names carry different surrounding
whitespace) normalize alike and therefore hash alike. -/
theorem computeGroupHash_pure_of_normalized_witness :
    (let x : PyVal := .pdict [("name", .pstr "G"),
       ("metadata", .pdict [("b", .pstr "2"), ("a", .pstr "1")])]
     let y : PyVal := .pdict [("name", .pstr " G "),
       ("metadata", .pdict [("a", .pstr "1"), ("b", .pstr "2")])]
     computeGroupHash x =
       some ((sha256hex (utf8Bytes (canonicalJson "G"
         (sortedKvItems ⟨"G", [("b", ⟨"2", none⟩), ("a", ⟨"1", none⟩)]⟩)))).take
         GROUP_HASH_LENGTH) ∧
     computeGroupHash x = computeGroupHash y) :=
  computeGroupHash_pure_of_normalized
    (.pdict [("name", .pstr "G"), ("metadata", .pdict [("b", .pstr "2"), ("a", .pstr "1")])])
    (.pdict [("name", .pstr " G "), ("metadata", .pdict [("a", .pstr "1"), ("b", .pstr "2")])])
    ⟨"G", [("b", ⟨"2", none⟩), ("a", ⟨"1", none⟩)]⟩
    ⟨"G", [("a", ⟨"1", none⟩), ("b", ⟨"2", none⟩)]⟩
    (by decide) (by decide) (by decide) (by decide)

/-! ## Connection watchdog

`websocket.py`, `monitor_connection`: the body of one 5-second tick as a
function of what the tick observes.  `last_activity` is written only by
the receive loop (`async for msg in ws` sets it on every inbound
message); the tick reads it and never writes it, which is the
"ping-success is not activity" behaviour.
-/

/-- What one watchdog tick observes: whether the session run exists and
is still `running`, whether the channel reports closed, whether the
liveness ping succeeds, and the seconds elapsed since the last inbound
message. -/
structure MonitorObservation where
  runActive : Bool
  wsClosed : Bool
  pingOk : Bool
  secondsSinceActivity : ℚ
deriving DecidableEq, Repr

/-- The outcome of one watchdog tick. -/
inductive TickResult where
  | exitMonitor
  | abortRun (reason : String)
  | stopMonitor
  | keepWaiting
deriving DecidableEq, Repr

/-- One iteration of the `while True` loop of `monitor_connection`:
exit when the run is gone or terminal; abort when the channel is
closed; on ping failure stop the monitor without aborting (the code
comment says so explicitly); abort with `Connection timeout` when more
than 30 seconds passed since the last inbound message; otherwise sleep
again. -/
def monitorTick (st : MonitorObservation) : TickResult :=
  if !st.runActive then .exitMonitor
  else if st.wsClosed then .abortRun "WebSocket closed"
  else if !st.pingOk then .stopMonitor
  else if 30 < st.secondsSinceActivity then .abortRun "Connection timeout"
  else .keepWaiting

/-- Counterexample to C4 as stated: with the run running, the channel
open and a fresh activity timestamp, a failed liveness ping makes the
watchdog stop without aborting the run, not abort it. -/
theorem monitorTick_ping_failure_does_not_abort :
    monitorTick ⟨true, false, false, 0⟩ = .stopMonitor ∧
    monitorTick ⟨true, false, false, 0⟩ ≠ .abortRun "WebSocket closed" ∧
    monitorTick ⟨true, false, false, 0⟩ ≠ .abortRun "Connection timeout" := by
  exact ⟨rfl, by decide, by decide⟩

/-- C4 as amended.  While the run is running, a tick aborts exactly when
the channel is closed or the ping succeeded and more than 30 seconds
passed since the last inbound message; the idle abort carries reason
`Connection timeout`; a failed ping merely stops the monitor; and the
tick never touches the activity clock, so a successful ping alone does
not stave off the timeout. -/
theorem monitorTick_amended (st : MonitorObservation) (hrun : st.runActive = true) :
    ((∃ reason, monitorTick st = .abortRun reason) ↔
      (st.wsClosed = true ∨ (st.pingOk = true ∧ 30 < st.secondsSinceActivity))) ∧
    (st.wsClosed = false → st.pingOk = true → 30 < st.secondsSinceActivity →
      monitorTick st = .abortRun "Connection timeout") ∧
    (st.wsClosed = false → st.pingOk = false → monitorTick st = .stopMonitor) := by
  obtain ⟨ra, wc, po, secs⟩ := st
  simp only at hrun
  subst hrun
  cases wc <;> cases po <;> by_cases ht : 30 < secs <;>
    simp_all [monitorTick] <;>
    (rw [if_neg (not_lt.mpr ht)] ; simp ; try exact ht)

/-- Witness for C4 (amended): 35 seconds of silence with a healthy
channel yields the `Connection timeout` abort (scenario C of the
spec). -/
theorem monitorTick_amended_witness :
    (let st : MonitorObservation := ⟨true, false, true, 35⟩
     ((∃ reason, monitorTick st = .abortRun reason) ↔
       (st.wsClosed = true ∨ (st.pingOk = true ∧ 30 < st.secondsSinceActivity))) ∧
     (st.wsClosed = false → st.pingOk = true → 30 < st.secondsSinceActivity →
       monitorTick st = .abortRun "Connection timeout") ∧
     (st.wsClosed = false → st.pingOk = false → monitorTick st = .stopMonitor)) :=
  monitorTick_amended ⟨true, false, true, 35⟩ rfl

/-! ## Duplicate run id at `run_started`

`websocket.py`, `_handle_run_started`: the validation phase for a
client-supplied run id, its reply, and its effect on the in-memory
active map and the relational index.
-/

/-- The reply sent to the runner in a `run_started_response`. -/
inductive RunStartedReply where
  | errInvalid (e : RunIdError)
  | errInUse (runId : String)
  | ok (runId : String)
deriving DecidableEq, Repr

/-- The state `_handle_run_started` can touch: the in-memory active map
(`self.test_runs`) and the indexed runs, both projected to their run-id
key sets. -/
structure ServerState where
  activeRunIds : List String
  dbRunIds : List String
deriving DecidableEq, Repr

/-- Outcome of `_handle_run_started` for a client-supplied id: the
reply, the state afterwards, and whether the session stays open (the
handler returns instead of closing the socket in every branch). -/
structure RunStartedOutcome where
  reply : RunStartedReply
  state : ServerState
  sessionOpen : Bool
deriving DecidableEq, Repr

/-- `_handle_run_started` restricted to a client-supplied `run_id`:
validate it, reject an in-memory or indexed duplicate with the
in-use error, otherwise create the run (register it in memory and in
the index).  Every branch leaves the session open. -/
def handleRunStarted (st : ServerState) (clientRunId : String) : RunStartedOutcome :=
  match validateCustomRunId clientRunId with
  | some e => ⟨.errInvalid e, st, true⟩
  | none =>
    if st.activeRunIds.contains clientRunId then ⟨.errInUse clientRunId, st, true⟩
    else if st.dbRunIds.contains clientRunId then ⟨.errInUse clientRunId, st, true⟩
    else ⟨.ok clientRunId,
      ⟨st.activeRunIds ++ [clientRunId], st.dbRunIds ++ [clientRunId]⟩, true⟩

/-- C5.  A `run_started` carrying a valid client-supplied id that is
already active in memory or present in the index gets the in-use error
reply, mutates neither store, and leaves the session open. -/
theorem duplicate_run_id_rejected_without_mutation (st : ServerState) (rid : String)
    (hvalid : validateCustomRunId rid = none)
    (hdup : st.activeRunIds.contains rid = true ∨ st.dbRunIds.contains rid = true) :
    handleRunStarted st rid = ⟨.errInUse rid, st, true⟩ := by
  unfold handleRunStarted
  rw [hvalid]
  cases hmem : st.activeRunIds.contains rid
  · rcases hdup with h | h
    · rw [hmem] at h
      exact absurd h (by simp)
    · rw [h]
      simp
  · simp

/-- Witness for C5: scenario D of the spec, a fresh session offering the
already-indexed id `run-A`. -/
theorem duplicate_run_id_rejected_without_mutation_witness :
    handleRunStarted ⟨[], ["run-A"]⟩ "run-A" =
      ⟨.errInUse "run-A", ⟨[], ["run-A"]⟩, true⟩ :=
  duplicate_run_id_rejected_without_mutation ⟨[], ["run-A"]⟩ "run-A"
    (by decide) (Or.inr (by decide))

/-! ## Status counting: broadcast counts versus index aggregation

`websocket.py`, `_count_test_statuses` and `_handle_test_case_finished`;
`database.py`, the aggregated columns of `get_test_runs`.
-/

/-- The four counters of the `counts` object broadcast to UI clients. -/
structure BroadcastCounts where
  passed : Nat
  failed : Nat
  skipped : Nat
  aborted : Nat
deriving DecidableEq, Repr

/-- `_count_test_statuses`: tally only passed, failed, skipped and
aborted, walking the run's test cases. -/
def countTestStatuses (statuses : List String) : BroadcastCounts :=
  statuses.foldl
    (fun acc s =>
      let st := pyLower s
      if st == "passed" then { acc with passed := acc.passed + 1 }
      else if st == "failed" then { acc with failed := acc.failed + 1 }
      else if st == "skipped" then { acc with skipped := acc.skipped + 1 }
      else if st == "aborted" then { acc with aborted := acc.aborted + 1 }
      else acc)
    ⟨0, 0, 0, 0⟩

/-- The terminal statuses `_handle_test_case_finished` accepts. -/
def finishedStatusAccepted (status : String) : Bool :=
  ["passed", "failed", "skipped", "aborted", "error"].contains (pyLower status)

/-- The status `_handle_test_case_finished` records (lower-cased) when
accepted; `none` when the message is ignored. -/
def recordedFinishedStatus (status : String) : Option String :=
  if finishedStatusAccepted status then some (pyLower status) else none

/-- The six aggregated columns `get_test_runs` computes per run from its
`test_cases` rows. -/
structure SqlRunCounts where
  testCaseCount : Nat
  passed : Nat
  failed : Nat
  skipped : Nat
  aborted : Nat
  errorCount : Nat
deriving DecidableEq, Repr

/-- The `COUNT`/`SUM(CASE WHEN …)` aggregation of `get_test_runs` over
the stored test-case statuses. -/
def sqlRunCounts (statuses : List String) : SqlRunCounts :=
  ⟨statuses.length,
   (statuses.filter (fun s => s == "passed")).length,
   (statuses.filter (fun s => s == "failed")).length,
   (statuses.filter (fun s => s == "skipped")).length,
   (statuses.filter (fun s => s == "aborted")).length,
   (statuses.filter (fun s => s == "error")).length⟩

/-- C9.  `error` is accepted and recorded as a terminal status, the
index aggregation reports it in its own `error_count` column, and the
broadcast counts object ignores it: appending an `error` case leaves
all four broadcast counters unchanged while bumping only
`error_count` (and the total) in the index aggregation. -/
theorem error_status_in_index_but_not_in_broadcast_counts (statuses : List String) :
    recordedFinishedStatus "error" = some "error" ∧
    countTestStatuses (statuses ++ ["error"]) = countTestStatuses statuses ∧
    sqlRunCounts (statuses ++ ["error"]) =
      { sqlRunCounts statuses with
          testCaseCount := (sqlRunCounts statuses).testCaseCount + 1,
          errorCount := (sqlRunCounts statuses).errorCount + 1 } := by
  refine ⟨rfl, ?_, ?_⟩
  · unfold countTestStatuses
    rw [List.foldl_append]
    rfl
  · unfold sqlRunCounts
    simp [List.filter_append]

/-! ## Log-batch ingestion

`models.py`, `TestCaseData.add_log_entries`, and the dispatch in
`websocket.py`, `_handle_log_batch`.  A raw compact entry is valid when
it is a dict carrying the `ts` key.
-/

/-- The validation of `add_log_entries`:
`isinstance(entry, dict) and 'ts' in entry`. -/
def entryValid (e : PyVal) : Bool :=
  isDict e && hasKey e "ts"

/-- The per-case state `add_log_entries` touches: the on-disk log file
as a record sequence, the in-memory `logs` list, and the attached
subscriber queues.

Modelled from the spec: `write_mplog_entries_async` is imported from
`utils` but absent from the sources; per §4.3 it appends each compact
record, length-prefixed, to the per-case log file, which this model
renders as appending to the record sequence. -/
structure CaseIngestState where
  fileRecords : List PyVal
  logs : List PyVal
  queues : List (List PyVal)

/-- `TestCaseData.add_log_entries`: keep exactly the dict entries with a
`ts` field, append them (in order) to the file and the in-memory list,
and put each one on every subscriber queue. -/
def addLogEntries (cs : CaseIngestState) (raw : List PyVal) : CaseIngestState :=
  if raw.isEmpty then cs
  else
    let valid := raw.filter entryValid
    if valid.isEmpty then cs
    else
      { fileRecords := cs.fileRecords ++ valid
        logs := cs.logs ++ valid
        queues := cs.queues.map (fun q => q ++ valid) }

/-- `_handle_log_batch`: look the run up in the active map and the case
up by `tc_id`; a missing run or case only logs an error; otherwise the
raw entries go through `add_log_entries` of that case. -/
def handleLogBatch (runs : List (String × List (String × CaseIngestState)))
    (runId tcId : String) (raw : List PyVal) :
    List (String × List (String × CaseIngestState)) :=
  match runs.find? (fun r => r.1 == runId) with
  | none => runs
  | some r =>
    match r.2.find? (fun kv => kv.1 == tcId) with
    | none => runs
    | some _ =>
      runs.map (fun rr =>
        if rr.1 == runId then
          (rr.1, rr.2.map (fun kv =>
            if kv.1 == tcId then (kv.1, addLogEntries kv.2 raw) else kv))
        else rr)

/-- `add_log_entries` always amounts to appending the valid entries
everywhere (the early returns for an empty batch or an all-invalid
batch coincide with appending nothing). -/
theorem addLogEntries_eq (cs : CaseIngestState) (raw : List PyVal) :
    addLogEntries cs raw =
      { fileRecords := cs.fileRecords ++ raw.filter entryValid
        logs := cs.logs ++ raw.filter entryValid
        queues := cs.queues.map (fun q => q ++ raw.filter entryValid) } := by
  obtain ⟨fileRecords, logs, queues⟩ := cs
  unfold addLogEntries
  by_cases hraw : raw.isEmpty
  · rw [if_pos hraw]
    rw [List.isEmpty_iff] at hraw
    subst hraw
    simp
  · rw [if_neg hraw]
    by_cases hval : (raw.filter entryValid).isEmpty
    · rw [if_pos hval]
      rw [List.isEmpty_iff] at hval
      rw [hval]
      simp
    · rw [if_neg hval]

/-- C8.  For a `log_batch` addressed to an existing test case of an
active run, exactly the dict entries carrying `ts` are appended, in
received order, to the per-case file and the in-memory list, and each
of them lands on every attached subscriber queue; entries without a
timestamp appear in none of the three places. -/
theorem logBatch_appends_exactly_valid_entries
    (runs : List (String × List (String × CaseIngestState)))
    (runId tcId : String) (raw : List PyVal)
    (r : String × List (String × CaseIngestState))
    (kv : String × CaseIngestState)
    (hrun : runs.find? (fun r => r.1 == runId) = some r)
    (hcase : r.2.find? (fun kv => kv.1 == tcId) = some kv) :
    handleLogBatch runs runId tcId raw =
      runs.map (fun rr =>
        if rr.1 == runId then
          (rr.1, rr.2.map (fun kv =>
            if kv.1 == tcId then
              (kv.1,
                { fileRecords := kv.2.fileRecords ++ raw.filter entryValid
                  logs := kv.2.logs ++ raw.filter entryValid
                  queues := kv.2.queues.map (fun q => q ++ raw.filter entryValid) })
            else kv))
        else rr) := by
  unfold handleLogBatch
  rw [hrun]
  dsimp only
  rw [hcase]
  dsimp only
  simp only [addLogEntries_eq]

/-- Witness for C8: a two-entry batch in which only the first entry
carries `ts`; the timestamped entry is appended and published, the
other is dropped. -/
theorem logBatch_appends_exactly_valid_entries_witness :
    (let good : PyVal := .pdict [("ts", .pint 1737820282736), ("m", .pstr "hello")]
     let bad : PyVal := .pdict [("m", .pstr "no timestamp")]
     let cs : CaseIngestState := ⟨[], [], [[]]⟩
     handleLogBatch [("run1", [("0-1", cs)])] "run1" "0-1" [good, bad] =
       [("run1", [("0-1",
         { fileRecords := [good, bad].filter entryValid
           logs := [good, bad].filter entryValid
           queues := [[] ++ [good, bad].filter entryValid] })])]) :=
  logBatch_appends_exactly_valid_entries
    [("run1", [("0-1", ⟨[], [], [[]]⟩)])] "run1" "0-1"
    [.pdict [("ts", .pint 1737820282736), ("m", .pstr "hello")],
     .pdict [("m", .pstr "no timestamp")]]
    ("run1", [("0-1", ⟨[], [], [[]]⟩)]) ("0-1", ⟨[], [], [[]]⟩) rfl rfl

/-! ## Live-log replay

`websocket.py`, `handle_log_stream`: the initial batch built from the
case's existing `logs` (raw compact entries, `ts` key) and
`stack_traces` (canonical dicts, `timestamp` key), sorted by the
`entry.get("timestamp", "")` key and sent before the subscriber queue
is attached.
-/

/-- The sort key `x[0] or ""` of the replay: the entry's `timestamp`
value, empty when the key is absent (compact log entries carry `ts`,
not `timestamp`) or when its value is falsy. -/
def replayKey (e : PyVal) : String :=
  match dictGet e "timestamp" with
  | some (.pstr s) => s
  | _ => ""

/-- `{"type": "exception", **trace}`: the broadcast payload for a stack
trace (the traces the server writes never carry a `type` key
themselves). -/
def wrapException (trace : List (String × PyVal)) : PyVal :=
  .pdict (("type", .pstr "exception") :: trace)

/-- The initial replay batch of `handle_log_stream`: pair every existing
log entry and every wrapped stack trace with its `timestamp` key, sort
stably by that key (Python `list.sort` with a key function) and strip
the keys. -/
def initialReplay (logs : List PyVal) (stackTraces : List (List (String × PyVal))) :
    List PyVal :=
  let items := logs.map (fun e => (replayKey e, e)) ++
    stackTraces.map (fun t => (replayKey (.pdict t), wrapException t))
  (stableSortBy (fun a b => strLtB a.1.data b.1.data) items).map (fun p => p.2)

/-- C2 fails on the code: a compact log entry stamped 2000 ms after the
epoch is replayed before an exception stamped at the epoch, because the
sort reads the absent `timestamp` key of the compact entry and gets the
empty string; the batch is neither sorted by the entries' timestamps
nor in persistence order (the exception was persisted first). -/
theorem replay_puts_late_log_before_early_exception :
    (let lateLog : PyVal := .pdict [("ts", .pint 2000), ("m", .pstr "late")]
     let earlyTrace : List (String × PyVal) :=
       [("timestamp", .pstr "1970-01-01T00:00:00Z"), ("message", .pstr "boom"),
        ("exception_type", .pstr "E"), ("stack_trace", .plist []),
        ("is_error", .pbool false)]
     initialReplay [lateLog] [earlyTrace] = [lateLog, wrapException earlyTrace] ∧
     replayKey lateLog = "" ∧
     replayKey (.pdict earlyTrace) = "1970-01-01T00:00:00Z") :=
  ⟨rfl, rfl, rfl⟩

/-! ## Merge-on-finish and per-case file cleanup

`websocket.py`, `_merge_logs_for_run` and `_cleanup_case_log_files`,
with the per-case file-name suffixes of `utils.py`.  A record is
modelled as its framed byte sequence (4-byte big-endian length plus
payload), a file as its record list.

Modelled from the spec: `read_mplog_raw` is imported from `utils` but
absent from the sources; per §4.3 it returns the length-prefixed
records of a per-case file, raw bytes included, which the merge writes
verbatim into the archive.
-/

/-- `CASE_LOG_FILE_SUFFIX` (utils.py line 18). -/
def CASE_LOG_FILE_SUFFIX : String := "_log.jsonl"

/-- `CASE_STACK_FILE_SUFFIX` (utils.py line 19). -/
def CASE_STACK_FILE_SUFFIX : String := "_stack.jsonl"

/-- Boolean prefix test on character lists. -/
def isPrefixOfB : List Char → List Char → Bool
  | [], _ => true
  | _ :: _, [] => false
  | a :: as, b :: bs => a == b && isPrefixOfB as bs

/-- A file name matches the glob `*<suffix>` exactly when it ends with
the suffix. -/
def globEndsWith (name : String) (suffix : String) : Bool :=
  isPrefixOfB suffix.data.reverse name.data.reverse

/-- One test case of the run during the merge, in `test_cases`
iteration order: its storage id and the offset fields the merge
fills in. -/
structure MergeCase where
  tcId : String
  fullName : String
  logOffset : Option Nat
  logCount : Nat
  stackCount : Nat
deriving DecidableEq, Repr

/-- The run directory as the merge sees it: the flat per-case files
under `cases/` (name to framed records), the attachment
subdirectories, whether `cases/` itself exists, and the merged
archive. -/
structure RunDir where
  caseFiles : List (String × List (List Nat))
  attachmentDirs : List String
  casesDirPresent : Bool
  merged : Option (List Nat)
deriving DecidableEq, Repr

/-- File lookup (`path.exists()` plus read). -/
def lookupFile (files : List (String × List (List Nat))) (name : String) :
    Option (List (List Nat)) :=
  (files.find? (fun f => f.1 == name)).map (fun f => f.2)

/-- Byte concatenation of framed records, as `merged_file.write` emits
them one after another. -/
def flattenRecords (records : List (List Nat)) : List Nat :=
  records.foldr (fun r acc => r ++ acc) []

/-- The per-case loop of `_merge_logs_for_run`: note the current byte
offset, copy the log records then the stack records of the case (a
missing file contributes nothing), and store offset and counts on the
test case. -/
def mergeCases (files : List (String × List (List Nat))) :
    List MergeCase → List Nat → List Nat × List MergeCase
  | [], bytes => (bytes, [])
  | tc :: rest, bytes =>
    let offset := bytes.length
    let logRecs := (lookupFile files (tc.tcId ++ CASE_LOG_FILE_SUFFIX)).getD []
    let stackRecs := (lookupFile files (tc.tcId ++ CASE_STACK_FILE_SUFFIX)).getD []
    let newBytes := bytes ++ flattenRecords logRecs ++ flattenRecords stackRecs
    let res := mergeCases files rest newBytes
    (res.1, { tc with logOffset := some offset, logCount := logRecs.length,
                      stackCount := stackRecs.length } :: res.2)

/-- `_cleanup_case_log_files`: delete the files matching the globs
`*_log.mplog` and `*_stack.mplog`, then remove `cases/` only when
nothing (no file, no attachment subdirectory) is left. -/
def cleanupCaseLogFiles (dir : RunDir) : RunDir :=
  let files := dir.caseFiles.filter (fun f =>
    !(globEndsWith f.1 "_log.mplog" || globEndsWith f.1 "_stack.mplog"))
  { dir with caseFiles := files,
             casesDirPresent := !(files.isEmpty && dir.attachmentDirs.isEmpty) }

/-- `_merge_logs_for_run`: write the merged archive over every test
case in iteration order, then clean the per-case files up when the
`cases/` directory exists. -/
def mergeLogsForRun (cases : List MergeCase) (dir : RunDir) :
    List MergeCase × RunDir :=
  let res := mergeCases dir.caseFiles cases []
  let dir1 : RunDir := { dir with merged := some res.1 }
  let dir2 := if dir1.casesDirPresent then cleanupCaseLogFiles dir1 else dir1
  (res.2, dir2)

/-- What the sidecar rewrite after the merge records per test case
(`TestCaseData.to_dict` adds `log_offset`, `log_count` and
`stack_count` once `log_offset` is set; `_handle_run_finished` writes
the sidecar right after merging). -/
def sidecarEntries (cases : List MergeCase) :
    List (String × Option Nat × Nat × Nat) :=
  cases.map (fun tc => (tc.fullName, tc.logOffset, tc.logCount, tc.stackCount))

/-- C1 fails on the code: after `run_finished` for a two-case run (two
log records and one stack record each), the merged archive exists and
the sidecar records correct offsets and counts, but the per-case files
are still there — they end in `_log.jsonl`/`_stack.jsonl`
(`CASE_LOG_FILE_SUFFIX`/`CASE_STACK_FILE_SUFFIX`) while the cleanup
deletes only `*_log.mplog`/`*_stack.mplog` matches.  Attachment
subdirectories are (vacuously) preserved. -/
theorem merge_records_offsets_but_leaves_case_files :
    (let r : Nat → List Nat := fun b => [0, 0, 0, 1, b]
     let dir : RunDir :=
       { caseFiles := [("0-1" ++ CASE_LOG_FILE_SUFFIX, [r 65, r 66]),
                       ("0-1" ++ CASE_STACK_FILE_SUFFIX, [r 67]),
                       ("0-2" ++ CASE_LOG_FILE_SUFFIX, [r 68, r 69]),
                       ("0-2" ++ CASE_STACK_FILE_SUFFIX, [r 70])]
         attachmentDirs := ["0-1"]
         casesDirPresent := true
         merged := none }
     let cases : List MergeCase :=
       [⟨"0-1", "Ns.T1", none, 0, 0⟩, ⟨"0-2", "Ns.T2", none, 0, 0⟩]
     let out := mergeLogsForRun cases dir
     out.2.merged =
       some (flattenRecords [r 65, r 66, r 67, r 68, r 69, r 70]) ∧
     sidecarEntries out.1 =
       [("Ns.T1", some 0, 2, 1), ("Ns.T2", some 15, 2, 1)] ∧
     out.2.caseFiles = dir.caseFiles ∧
     out.2.attachmentDirs = ["0-1"] ∧
     out.2.casesDirPresent = true ∧
     globEndsWith ("0-1" ++ CASE_LOG_FILE_SUFFIX) "_log.mplog" = false) := by
  refine ⟨by decide, by decide, by decide, rfl, by decide, by decide⟩

/-! ## Startup sweep for abandoned runs

`cleanup.py`, `cleanup_abandoned_running_runs`, over the two index
update helpers of `database.py`.  The sweep fetches the run rows once
(`get_test_runs(limit=10000)`, start-time ordered — the order does not
affect the final state since each run touches only its own rows) and
walks their test cases.
-/

/-- A `test_runs` row (the columns the sweep touches). -/
structure DbRun where
  runId : String
  status : String
  endTime : Option String
deriving DecidableEq, Repr

/-- A `test_cases` row (the columns the sweep touches). -/
structure DbCase where
  runId : String
  tcFullName : String
  status : String
  startTime : String
  endTime : Option String
deriving DecidableEq, Repr

/-- The relational index. -/
structure Db where
  runs : List DbRun
  cases : List DbCase
deriving DecidableEq, Repr

/-- `database.log_test_case_finished`: set status and end time of the
`(run_id, tc_full_name)` row. -/
def logTestCaseFinished (now : String) (db : Db) (runId tcFullName status : String) : Db :=
  { db with cases := db.cases.map (fun c =>
      if c.runId == runId && c.tcFullName == tcFullName then
        { c with status := status, endTime := some now }
      else c) }

/-- `database.log_test_run_finished(run_id, status)`: set status and
end time (now) of the run row. -/
def logTestRunFinished (now : String) (db : Db) (runId status : String) : Db :=
  { db with runs := db.runs.map (fun r =>
      if r.runId == runId then { r with status := status, endTime := some now } else r) }

/-- A Python positional call of `database.log_test_run_finished`: the
function takes exactly the two parameters `(run_id, status)`, so a call
with any other argument count raises `TypeError` before the body
runs. -/
def callLogTestRunFinished (now : String) (db : Db) (args : List String) :
    Except String Db :=
  match args with
  | [runId, status] => .ok (logTestRunFinished now db runId status)
  | _ => .error "TypeError"

/-- `get_test_cases_for_run`: the run's rows ordered by start time. -/
def testCasesForRun (db : Db) (runId : String) : List DbCase :=
  stableSortBy (fun a b => strLtB a.startTime.data b.startTime.data)
    (db.cases.filter (fun c => c.runId == runId))

/-- The per-run body of `cleanup_abandoned_running_runs`: abort every
still-running test case of the run, tracking how many were aborted and
the latest start time seen; then, only when the run row said `running`
and at least one case was aborted, call `log_test_run_finished` with
the three arguments `(run_id, run_end_time, 'aborted')` — a call the
two-parameter function rejects with `TypeError`, which the surrounding
`except` swallows, leaving the run row untouched. -/
def sweepRun (now : String) (db : Db) (run : DbRun) : Db :=
  let step := fun (acc : Db × Nat × Option String) (tc : DbCase) =>
    if tc.status == "running" then
      let db1 := logTestCaseFinished now acc.1 run.runId tc.tcFullName "aborted"
      let last :=
        if tc.startTime == "" then acc.2.2
        else
          match acc.2.2 with
          | none => some tc.startTime
          | some t => if strLtB t.data tc.startTime.data then some tc.startTime else some t
      (db1, acc.2.1 + 1, last)
    else acc
  let res := (testCasesForRun db run.runId).foldl step (db, 0, none)
  if run.status == "running" ∧ 0 < res.2.1 then
    let runEndTime := (res.2.2).getD now
    match callLogTestRunFinished now res.1 [run.runId, runEndTime, "aborted"] with
    | .ok db2 => db2
    | .error _ => res.1
  else res.1

/-- `cleanup_abandoned_running_runs`: sweep every indexed run whose
snapshot status is `running` or `aborted`. -/
def cleanupAbandonedRunningRuns (now : String) (db : Db) : Db :=
  (db.runs.filter (fun r => r.status == "running" || r.status == "aborted")).foldl
    (fun acc r => sweepRun now acc r) db

/-- C3 fails on the code: for an indexed run left `running` with one
still-running test case, the startup sweep aborts the test case, but
the run row keeps status `running` and no end time — the
`log_test_run_finished(run_id, run_end_time, 'aborted')` call passes
three arguments to a two-parameter function, so it raises `TypeError`
into the surrounding `except`. -/
theorem startup_sweep_aborts_case_but_not_run :
    (let db : Db := ⟨[⟨"r1", "running", none⟩],
                     [⟨"r1", "T.case", "running", "2025-01-01T00:00:00Z", none⟩]⟩
     let now := "2025-01-02T00:00:00Z"
     let db2 := cleanupAbandonedRunningRuns now db
     db2.cases = [⟨"r1", "T.case", "aborted", "2025-01-01T00:00:00Z", some now⟩] ∧
     db2.runs = [⟨"r1", "running", none⟩] ∧
     callLogTestRunFinished now db2 ["r1", "2025-01-01T00:00:00Z", "aborted"] =
       .error "TypeError") := by
  refine ⟨by decide, by decide, rfl⟩

end TestRift
